import Mathlib

/-!
Verification development for the `indian_ai_hedge_fund` scoring core.

The Python modules `analysts/ben_graham.py`, `analysts/warren_buffet.py` and
`tools/finance.py` are shallowly embedded here.  Python floats are modelled as
exact rationals (`ℚ`); all numeric literals appearing in the source
(`0.8`, `0.15`, `22.5`, …) are exactly representable as IEEE doubles or only
enter comparisons away from representation boundaries, so the rational model
agrees with the float code on every comparison used in the theorems below.
Optional (`None`-able) fields are modelled as `Option ℚ`, and Python
truthiness (`if x:` treating both `None` and `0.0` as false) is modelled
explicitly by `pyTruthy`.  `math.sqrt` is modelled by `Rat.sqrt`, which agrees
with IEEE sqrt on the exact perfect squares used in concrete evaluations.
-/

/-- Mirrors the pydantic model `FinancialMetrics` in `tools/finance.py`.
Every field is optional there (`float | None = None`); `period` is a
timestamp, modelled as an integer time value. -/
structure FinancialMetrics where
  capital_expenditure : Option ℚ := none
  depreciation_and_amortization : Option ℚ := none
  net_income : Option ℚ := none
  outstanding_shares : Option ℚ := none
  total_assets : Option ℚ := none
  total_liabilities : Option ℚ := none
  dividends_and_other_cash_distributions : Option ℚ := none
  issuance_or_purchase_of_equity_shares : Option ℚ := none
  return_on_equity : Option ℚ := none
  debt_to_equity_ratio : Option ℚ := none
  operating_margin : Option ℚ := none
  current_ratio : Option ℚ := none
  market_cap : Option ℚ := none
  period : Option ℤ := none
  earnings_per_share : Option ℚ := none
  book_value_per_share : Option ℚ := none
  price_to_earnings_ratio : Option ℚ := none
  price_to_book_ratio : Option ℚ := none
  working_capital : Option ℚ := none
  long_term_debt : Option ℚ := none
  current_assets : Option ℚ := none
  current_liabilities : Option ℚ := none
deriving DecidableEq, Inhabited

/-- Python truthiness of an optional float: `None` and `0.0` are falsy. -/
def pyTruthy (x : Option ℚ) : Bool :=
  match x with
  | none => false
  | some v => v != 0

/-- Models the Python idiom `value or 0` on an optional float: `None` maps to
`0`, and `0.0 or 0` is also `0`, so this is exactly `Option.getD 0`. -/
def orZero (x : Option ℚ) : ℚ := x.getD 0

/-- Models Python's `"; ".join(details)`. -/
def joinSemi : List String → String
  | [] => ""
  | [s] => s
  | s :: rest => s ++ "; " ++ joinSemi rest

/-- Round a rational to the nearest integer, ties to even — the rounding
mode used by Python's fixed-point string formatting. -/
def roundHalfEven (r : ℚ) : ℤ :=
  let f := ⌊r⌋
  if r - f < 1/2 then f
  else if 1/2 < r - f then f + 1
  else if f % 2 = 0 then f else f + 1

/-- Two-digit zero padding for the fractional part of a formatted number. -/
def natPad2 (n : ℕ) : String :=
  if n < 10 then "0" ++ toString n else toString n

/-- Models Python's `f"{x:.2f}"` on the exact rational value. -/
def fmt2 (q : ℚ) : String :=
  let n := roundHalfEven (q * 100)
  let sign := if n < 0 then "-" else ""
  let m := n.natAbs
  sign ++ toString (m / 100) ++ "." ++ natPad2 (m % 100)

/-- Models Python's `f"{x:.1f}"` on the exact rational value. -/
def fmt1 (q : ℚ) : String :=
  let n := roundHalfEven (q * 10)
  let sign := if n < 0 then "-" else ""
  let m := n.natAbs
  sign ++ toString (m / 10) ++ "." ++ toString (m % 10)

/-- Models Python's `f"{x:.1%}"`. -/
def fmtPct1 (q : ℚ) : String := fmt1 (q * 100) ++ "%"

/-- Models Python's `f"{x:.2%}"`. -/
def fmtPct2 (q : ℚ) : String := fmt2 (q * 100) ++ "%"

/-- Three-digit zero padding for comma-grouped integer parts. -/
def natPad3 (n : ℕ) : String :=
  if n < 10 then "00" ++ toString n
  else if n < 100 then "0" ++ toString n
  else toString n

/-- Comma-group the decimal digits of a natural number in threes. -/
def commaNat (n : ℕ) : String :=
  if _h : n < 1000 then toString n
  else commaNat (n / 1000) ++ "," ++ natPad3 (n % 1000)
termination_by n
decreasing_by exact Nat.div_lt_self (by omega) (by omega)

/-- Models Python's `f"{x:,.2f}"` on the exact rational value. -/
def fmtComma2 (q : ℚ) : String :=
  let n := roundHalfEven (q * 100)
  let sign := if n < 0 then "-" else ""
  let m := n.natAbs
  sign ++ commaNat (m / 100) ++ "." ++ natPad2 (m % 100)

/-- Result of one Graham/Buffett sub-analysis: `{"score": ..., "details": ...}`. -/
structure SubResult where
  score : ℕ
  details : String
deriving DecidableEq

/-- The trading signal literal of both analysts. -/
inductive Signal where
  | bullish
  | bearish
  | neutral
deriving DecidableEq

/-- Embeds `analyze_earnings_stability` from `analysts/ben_graham.py`
(lines 155-196).  The `metrics` argument is unused there as well. -/
def analyze_earnings_stability (_metrics : FinancialMetrics)
    (historical_metrics : List FinancialMetrics) : SubResult :=
  if historical_metrics.isEmpty then
    ⟨0, "Insufficient data for earnings stability analysis"⟩
  else
    let eps_vals := historical_metrics.filterMap (fun item => item.earnings_per_share)
    if eps_vals.length < 2 then
      ⟨0, joinSemi ["Not enough multi-year EPS data."]⟩
    else
      let positive_eps_years := (eps_vals.filter (fun e => 0 < e)).length
      let total_eps_years := eps_vals.length
      let part1 : ℕ × String :=
        if positive_eps_years = total_eps_years then
          (3, "EPS was positive in all available periods.")
        else if (total_eps_years : ℚ) * 0.8 ≤ (positive_eps_years : ℚ) then
          (2, "EPS was positive in most periods.")
        else
          (0, "EPS was negative in multiple periods.")
      let part2 : ℕ × String :=
        if eps_vals.headD 0 < eps_vals.getLastD 0 then
          (1, "EPS grew from earliest to latest period.")
        else
          (0, "EPS did not grow from earliest to latest period.")
      ⟨part1.1 + part2.1, joinSemi [part1.2, part2.2]⟩

/-- The current-ratio block of `analyze_financial_strength`
(`ben_graham.py` lines 215-227). -/
def liquidityPart (latest_item : FinancialMetrics) : ℕ × String :=
  let current_assets := orZero latest_item.current_assets
  let current_liabilities := orZero latest_item.current_liabilities
  if 0 < current_liabilities then
    let current_ratio := current_assets / current_liabilities
    if 2.0 ≤ current_ratio then
      (2, "Current ratio = " ++ fmt2 current_ratio ++ " (>=2.0: solid).")
    else if 1.5 ≤ current_ratio then
      (1, "Current ratio = " ++ fmt2 current_ratio ++ " (moderately strong).")
    else
      (0, "Current ratio = " ++ fmt2 current_ratio ++ " (<1.5: weaker liquidity).")
  else
    (0, "Cannot compute current ratio (missing or zero current_liabilities).")

/-- The debt-vs-assets block of `analyze_financial_strength`
(`ben_graham.py` lines 230-241). -/
def debtPart (latest_item : FinancialMetrics) : ℕ × String :=
  let total_assets := orZero latest_item.total_assets
  let total_liabilities := orZero latest_item.total_liabilities
  if 0 < total_assets then
    let debt_ratio := total_liabilities / total_assets
    if debt_ratio < 0.5 then
      (2, "Debt ratio = " ++ fmt2 debt_ratio ++ ", under 0.50 (conservative).")
    else if debt_ratio < 0.8 then
      (1, "Debt ratio = " ++ fmt2 debt_ratio ++ ", somewhat high but could be acceptable.")
    else
      (0, "Debt ratio = " ++ fmt2 debt_ratio ++ ", quite high by Graham standards.")
  else
    (0, "Cannot compute debt ratio (missing total_assets).")

/-- The dividend-record block of `analyze_financial_strength`
(`ben_graham.py` lines 244-259). -/
def dividendPart (historical_metrics : List FinancialMetrics) : ℕ × String :=
  let div_periods := historical_metrics.filterMap
    (fun item => item.dividends_and_other_cash_distributions)
  if div_periods.isEmpty then
    (0, "No dividend data available to assess payout consistency.")
  else
    let div_paid_years := (div_periods.filter (fun d => d < 0)).length
    if 0 < div_paid_years then
      if div_periods.length / 2 + 1 ≤ div_paid_years then
        (1, "Company paid dividends in the majority of the reported years.")
      else
        (0, "Company has some dividend payments, but not most years.")
    else
      (0, "Company did not pay dividends in these periods.")

/-- Embeds `analyze_financial_strength` from `ben_graham.py` (lines 198-261);
the three scoring blocks are factored out above, the score and the joined
details string are assembled exactly as in the source. -/
def analyze_financial_strength (_metrics : FinancialMetrics)
    (historical_metrics : List FinancialMetrics) : SubResult :=
  if historical_metrics.isEmpty then
    ⟨0, "No data for financial strength analysis"⟩
  else
    let latest_item := historical_metrics.getLastD {}
    let l := liquidityPart latest_item
    let d := debtPart latest_item
    let dv := dividendPart historical_metrics
    ⟨l.1 + d.1 + dv.1, joinSemi [l.2, d.2, dv.2]⟩

/-- Embeds `analyze_valuation_graham` from `ben_graham.py` (lines 263-334).
`math.sqrt` is modelled by `Rat.sqrt` (exact on perfect squares). -/
def analyze_valuation_graham (_metrics : FinancialMetrics)
    (historical_metrics : List FinancialMetrics) (market_cap : Option ℚ) : SubResult :=
  if historical_metrics.isEmpty ∨ ¬ pyTruthy market_cap ∨ orZero market_cap ≤ 0 then
    ⟨0, "Insufficient data to perform valuation"⟩
  else
    let mc := orZero market_cap
    let latest := historical_metrics.getLastD {}
    let current_assets := orZero latest.current_assets
    let total_liabilities := orZero latest.total_liabilities
    let book_value_ps := orZero latest.book_value_per_share
    let eps := orZero latest.earnings_per_share
    let shares_outstanding := orZero latest.outstanding_shares
    let net_current_asset_value := current_assets - total_liabilities
    let netnet : ℕ × List String :=
      if 0 < net_current_asset_value ∧ 0 < shares_outstanding then
        let net_current_asset_value_per_share := net_current_asset_value / shares_outstanding
        let price_per_share := if shares_outstanding != 0 then mc / shares_outstanding else 0
        let hdr := ["Net Current Asset Value = " ++ fmtComma2 net_current_asset_value,
                    "NCAV Per Share = " ++ fmtComma2 net_current_asset_value_per_share,
                    "Price Per Share = " ++ fmtComma2 price_per_share]
        if mc < net_current_asset_value then
          (4, hdr ++ ["Net-Net: NCAV > Market Cap (classic Graham deep value)."])
        else if price_per_share * 0.67 ≤ net_current_asset_value_per_share then
          (2, hdr ++ ["NCAV Per Share >= 2/3 of Price Per Share (moderate net-net discount)."])
        else
          (0, hdr)
      else
        (0, ["NCAV not exceeding market cap or insufficient data for net-net approach."])
    let graham_number : Option ℚ :=
      if 0 < eps ∧ 0 < book_value_ps then some (Rat.sqrt (22.5 * eps * book_value_ps))
      else none
    let gdetail : List String :=
      match graham_number with
      | some g => ["Graham Number = " ++ fmt2 g]
      | none => ["Unable to compute Graham Number (EPS or Book Value missing/<=0)."]
    let mos : ℕ × List String :=
      if pyTruthy graham_number ∧ 0 < shares_outstanding then
        let g := orZero graham_number
        let current_price := mc / shares_outstanding
        if 0 < current_price then
          let margin_of_safety := (g - current_price) / current_price
          let mhdr := ["Margin of Safety (Graham Number) = " ++ fmtPct2 margin_of_safety]
          if 0.5 < margin_of_safety then
            (3, mhdr ++ ["Price is well below Graham Number (>=50% margin)."])
          else if 0.2 < margin_of_safety then
            (1, mhdr ++ ["Some margin of safety relative to Graham Number."])
          else
            (0, mhdr ++ ["Price close to or above Graham Number, low margin of safety."])
        else
          (0, ["Current price is zero or invalid; can't compute margin of safety."])
      else (0, [])
    ⟨netnet.1 + mos.1, joinSemi (netnet.2 ++ gdetail ++ mos.2)⟩

/-- The hardcoded `max_possible_score = 15` of the Graham pipeline
(`ben_graham.py` line 63, commented "total possible from the three analysis
functions"). -/
def grahamMaxScore : ℕ := 15

/-- The total score computed by `process_single_ticker` in `ben_graham.py`
(line 62): sum of the three sub-analysis scores; `market_cap` is taken from
the latest-metrics snapshot. -/
def grahamTotalScore (metrics : FinancialMetrics)
    (historical_metrics : List FinancialMetrics) : ℕ :=
  (analyze_earnings_stability metrics historical_metrics).score
  + (analyze_financial_strength metrics historical_metrics).score
  + (analyze_valuation_graham metrics historical_metrics metrics.market_cap).score

/-- The signal rule of `process_single_ticker` in `ben_graham.py`
(lines 66-71). -/
def grahamSignal (total_score : ℕ) : Signal :=
  if 0.7 * (grahamMaxScore : ℚ) ≤ (total_score : ℚ) then .bullish
  else if (total_score : ℚ) ≤ 0.3 * (grahamMaxScore : ℚ) then .bearish
  else .neutral

/-- The ROE check of `analyze_fundamentals` in `analysts/warren_buffet.py`
(lines 192-199).  `if metrics.return_on_equity and metrics.return_on_equity
> 0.15` is Python truthiness: `None` and `0.0` both fall through to the
`else` ("data not available") branch. -/
def roeCheck (metrics : FinancialMetrics) : ℕ × String :=
  if pyTruthy metrics.return_on_equity ∧ 0.15 < orZero metrics.return_on_equity then
    (2, "Strong ROE of " ++ fmtPct1 (orZero metrics.return_on_equity))
  else if pyTruthy metrics.return_on_equity then
    (0, "Weak ROE of " ++ fmtPct1 (orZero metrics.return_on_equity))
  else
    (0, "ROE data not available")

/-- The debt-to-equity check of `analyze_fundamentals`
(`warren_buffet.py` lines 201-208). -/
def debtCheck (metrics : FinancialMetrics) : ℕ × String :=
  if pyTruthy metrics.debt_to_equity_ratio ∧ orZero metrics.debt_to_equity_ratio < 0.5 then
    (2, "Conservative debt levels")
  else if pyTruthy metrics.debt_to_equity_ratio then
    (0, "High debt to equity ratio of " ++ fmt1 (orZero metrics.debt_to_equity_ratio))
  else
    (0, "Debt to equity data not available")

/-- The operating-margin check of `analyze_fundamentals`
(`warren_buffet.py` lines 210-217). -/
def marginCheck (metrics : FinancialMetrics) : ℕ × String :=
  if pyTruthy metrics.operating_margin ∧ 0.15 < orZero metrics.operating_margin then
    (2, "Strong operating margins")
  else if pyTruthy metrics.operating_margin then
    (0, "Weak operating margin of " ++ fmtPct1 (orZero metrics.operating_margin))
  else
    (0, "Operating margin data not available")

/-- The current-ratio check of `analyze_fundamentals`
(`warren_buffet.py` lines 219-226). -/
def crCheck (metrics : FinancialMetrics) : ℕ × String :=
  if pyTruthy metrics.current_ratio ∧ 1.5 < orZero metrics.current_ratio then
    (1, "Good liquidity position")
  else if pyTruthy metrics.current_ratio then
    (0, "Weak liquidity with current ratio of " ++ fmt1 (orZero metrics.current_ratio))
  else
    (0, "Current ratio data not available")

/-- Embeds `analyze_fundamentals` from `warren_buffet.py` (lines 186-228);
the four checks are factored out above. -/
def analyze_fundamentals (metrics : FinancialMetrics) : SubResult :=
  ⟨(roeCheck metrics).1 + (debtCheck metrics).1 + (marginCheck metrics).1 + (crCheck metrics).1,
   joinSemi [(roeCheck metrics).2, (debtCheck metrics).2, (marginCheck metrics).2,
             (crCheck metrics).2]⟩

/-- Models `all(earnings_values[i] > earnings_values[i + 1] for i in
range(len(earnings_values) - 1))`. -/
def strictlyDecreasing : List ℚ → Bool
  | [] => true
  | [_] => true
  | a :: b :: rest => (b < a : Bool) && strictlyDecreasing (b :: rest)

/-- Embeds `analyze_consistency` from `warren_buffet.py` (lines 230-260).
The comprehension `[item.net_income for item in historical_metrics if
item.net_income]` filters by truthiness, dropping both `None` and `0.0`. -/
def analyze_consistency (historical_metrics : List FinancialMetrics) : SubResult :=
  if historical_metrics.length < 4 then
    ⟨0, "Insufficient historical data"⟩
  else
    let earnings_values := historical_metrics.filterMap
      (fun item => if pyTruthy item.net_income then item.net_income else none)
    if 4 ≤ earnings_values.length then
      let part1 : ℕ × String :=
        if strictlyDecreasing earnings_values then
          (3, "Consistent earnings growth over past periods")
        else
          (0, "Inconsistent earnings growth pattern")
      let growthLine : List String :=
        if 2 ≤ earnings_values.length ∧ earnings_values.getLastD 0 ≠ 0 then
          let growth_rate := (earnings_values.headD 0 - earnings_values.getLastD 0)
            / |earnings_values.getLastD 0|
          ["Total earnings growth of " ++ fmtPct1 growth_rate ++ " over past "
            ++ toString earnings_values.length ++ " periods"]
        else []
      ⟨part1.1, joinSemi ([part1.2] ++ growthLine)⟩
    else
      ⟨0, "Insufficient earnings data for trend analysis"⟩

/-- Result of a Buffett sub-analysis that also reports its own maximum:
`{"score": ..., "max_score": ..., "details": ...}`. -/
structure MaxScoredResult where
  score : ℕ
  max_score : ℕ
  details : String
deriving DecidableEq

/-- Embeds `analyze_moat` from `warren_buffet.py` (lines 262-313).
`if not historical_metrics or len(historical_metrics) < 3` is equivalent to
`len < 3`.  The ROE/margin lists use `is not None` filters (plain
`filterMap`), unlike the truthiness filter in `analyze_consistency`. -/
def analyze_moat (historical_metrics : List FinancialMetrics) : MaxScoredResult :=
  if historical_metrics.length < 3 then
    ⟨0, 3, "Insufficient data for moat analysis"⟩
  else
    let historical_roes := historical_metrics.filterMap (fun m => m.return_on_equity)
    let historical_margins := historical_metrics.filterMap (fun m => m.operating_margin)
    let roePart : ℕ × List String :=
      if 3 ≤ historical_roes.length then
        if historical_roes.all (fun r => 0.15 < r) then
          (1, ["Stable ROE above 15% across periods (suggests moat)"])
        else
          (0, ["ROE not consistently above 15%"])
      else (0, [])
    let marginPart : ℕ × List String :=
      if 3 ≤ historical_margins.length then
        if historical_margins.all (fun m => 0.15 < m) then
          (1, ["Stable operating margins above 15% (moat indicator)"])
        else
          (0, ["Operating margin not consistently above 15%"])
      else (0, [])
    let base := roePart.1 + marginPart.1
    let bonus : ℕ × List String :=
      if base = 2 then (1, ["Both ROE and margin stability indicate a solid moat"])
      else (0, [])
    ⟨base + bonus.1, 3, joinSemi (roePart.2 ++ marginPart.2 ++ bonus.2)⟩

/-- Embeds `analyze_management_quality` from `warren_buffet.py`
(lines 315-350).  The `hasattr` guards are always true for the pydantic
model, so only the truthiness-and-sign tests remain. -/
def analyze_management_quality (metrics : FinancialMetrics) : MaxScoredResult :=
  let latest := metrics
  let buyback : ℕ × List String :=
    if pyTruthy latest.issuance_or_purchase_of_equity_shares
        ∧ orZero latest.issuance_or_purchase_of_equity_shares < 0 then
      (1, ["Company has been repurchasing shares (shareholder-friendly)"])
    else (0, [])
  let issuance : List String :=
    if pyTruthy latest.issuance_or_purchase_of_equity_shares
        ∧ 0 < orZero latest.issuance_or_purchase_of_equity_shares then
      ["Recent common stock issuance (potential dilution)"]
    else
      ["No significant new stock issuance detected"]
  let divi : ℕ × List String :=
    if pyTruthy latest.dividends_and_other_cash_distributions
        ∧ orZero latest.dividends_and_other_cash_distributions < 0 then
      (1, ["Company has a track record of paying dividends"])
    else
      (0, ["No or minimal dividends paid"])
  ⟨buyback.1 + divi.1, 2, joinSemi (buyback.2 ++ issuance ++ divi.2)⟩

/-- Result of `calculate_owner_earnings`. -/
structure OwnerEarningsResult where
  owner_earnings : Option ℚ
  details : List String
deriving DecidableEq

/-- Embeds `calculate_owner_earnings` from `warren_buffet.py`
(lines 352-374).  `if not all([net_income, depreciation, capex])` is a
truthiness test: a field that is `None` *or exactly `0`* takes the
missing-components branch. -/
def calculate_owner_earnings (metrics : FinancialMetrics) : OwnerEarningsResult :=
  let latest := metrics
  let net_income := latest.net_income
  let depreciation := latest.depreciation_and_amortization
  let capex := latest.capital_expenditure
  if ¬ (pyTruthy net_income ∧ pyTruthy depreciation ∧ pyTruthy capex) then
    ⟨none, ["Missing components for owner earnings calculation"]⟩
  else
    let maintenance_capex := orZero capex * 0.75
    ⟨some (orZero net_income + orZero depreciation - maintenance_capex),
     ["Owner earnings calculated successfully"]⟩

/-- Result of `calculate_intrinsic_value`. -/
structure IntrinsicValueResult where
  intrinsic_value : Option ℚ
  details : List String
deriving DecidableEq

/-- Embeds `calculate_intrinsic_value` from `warren_buffet.py`
(lines 376-422).  `if not earnings_data["owner_earnings"]` is again a
truthiness test (`None` or `0.0` short-circuits to the `None` result). -/
def calculate_intrinsic_value (metrics : FinancialMetrics) : IntrinsicValueResult :=
  let earnings_data := calculate_owner_earnings metrics
  if ¬ pyTruthy earnings_data.owner_earnings then
    ⟨none, earnings_data.details⟩
  else
    let owner_earnings := orZero earnings_data.owner_earnings
    let shares_outstanding := metrics.outstanding_shares
    if ¬ pyTruthy shares_outstanding then
      ⟨none, ["Missing shares outstanding data"]⟩
    else
      let growth_rate : ℚ := 0.05
      let discount_rate : ℚ := 0.09
      let terminal_multiple : ℚ := 12
      let projection_years : ℕ := 10
      let future_value := (List.range projection_years).foldl
        (fun acc yr =>
          acc + owner_earnings * (1 + growth_rate) ^ (yr + 1) / (1 + discount_rate) ^ (yr + 1))
        0
      let terminal_value :=
        owner_earnings * (1 + growth_rate) ^ projection_years * terminal_multiple
          / (1 + discount_rate) ^ projection_years
      ⟨some (future_value + terminal_value),
       ["Intrinsic value calculated using DCF model with owner earnings"]⟩

/-- The total score of the Buffett pipeline (`warren_buffet.py` line 78). -/
def buffettTotalScore (metrics : FinancialMetrics)
    (historical_metrics : List FinancialMetrics) : ℕ :=
  (analyze_fundamentals metrics).score + (analyze_consistency historical_metrics).score
  + (analyze_moat historical_metrics).score + (analyze_management_quality metrics).score

/-- The maximum score of the Buffett pipeline (`warren_buffet.py` line 80):
`10 + moat_analysis["max_score"] + mgmt_analysis["max_score"]`. -/
def buffettMaxScore (metrics : FinancialMetrics)
    (historical_metrics : List FinancialMetrics) : ℕ :=
  10 + (analyze_moat historical_metrics).max_score
    + (analyze_management_quality metrics).max_score

/-- The margin-of-safety computation of the Buffett pipeline
(`warren_buffet.py` lines 83-86): stays `None` unless both the intrinsic
value and the market cap are truthy. -/
def buffettMarginOfSafety (metrics : FinancialMetrics) : Option ℚ :=
  let intrinsic_value := (calculate_intrinsic_value metrics).intrinsic_value
  if pyTruthy intrinsic_value ∧ pyTruthy metrics.market_cap then
    some ((orZero intrinsic_value - orZero metrics.market_cap) / orZero metrics.market_cap)
  else
    none

/-- The signal rule of the Buffett pipeline (`warren_buffet.py` lines 89-94).
The bullish branch tests `margin_of_safety and (margin_of_safety >= 0.3)`
(truthiness then value); the bearish branch tests
`margin_of_safety is not None and margin_of_safety < -0.3`. -/
def buffettSignal (total_score max_possible_score : ℕ) (margin_of_safety : Option ℚ) : Signal :=
  if 0.7 * (max_possible_score : ℚ) ≤ (total_score : ℚ) ∧ pyTruthy margin_of_safety
      ∧ 0.3 ≤ orZero margin_of_safety then
    .bullish
  else if (total_score : ℚ) ≤ 0.3 * (max_possible_score : ℚ)
      ∨ (margin_of_safety.isSome ∧ orZero margin_of_safety < -0.3) then
    .bearish
  else
    .neutral

/-- The raw annual statement data yfinance returns for one ticker symbol, as
consumed by `_fetch_and_calculate_historical_metrics` in `tools/finance.py`.
Column labels (reporting-period timestamps) are modelled as integers; each
statement row is a partial map from period to value. -/
structure YFinanceData where
  incomeCols : List ℤ := []
  balanceCols : List ℤ := []
  cashflowCols : List ℤ := []
  netIncomeRow : ℤ → Option ℚ := fun _ => none
  totalAssetsRow : ℤ → Option ℚ := fun _ => none
  totalLiabilitiesRow : ℤ → Option ℚ := fun _ => none
  currentAssetsRow : ℤ → Option ℚ := fun _ => none
  currentLiabilitiesRow : ℤ → Option ℚ := fun _ => none
  longTermDebtRow : ℤ → Option ℚ := fun _ => none
  capitalExpenditureRow : ℤ → Option ℚ := fun _ => none
  depreciationRow : ℤ → Option ℚ := fun _ => none
  dividendsPaidRow : ℤ → Option ℚ := fun _ => none
  sharesOutstanding : Option ℚ := none
  currentPrice : Option ℚ := none
  previousClose : Option ℚ := none
  operatingMargins : Option ℚ := none
  marketCap : Option ℚ := none

/-- The per-period loop body of `_fetch_and_calculate_historical_metrics`
(`finance.py` lines 237-287): derives the ratio and per-share fields for one
reporting period and builds its `FinancialMetrics`. -/
def buildHistMetric (d : YFinanceData) (shares : Option ℚ) (c : ℤ) : FinancialMetrics :=
  let ta := d.totalAssetsRow c
  let tl := d.totalLiabilitiesRow c
  let ca := d.currentAssetsRow c
  let cl := d.currentLiabilitiesRow c
  let ni := d.netIncomeRow c
  let se : Option ℚ := match ta, tl with
    | some a, some l => some (a - l)
    | _, _ => none
  let roe : Option ℚ := match ni, se with
    | some n, some s => if s ≠ 0 then some (n / s) else none
    | _, _ => none
  let de : Option ℚ := match tl, se with
    | some l, some s => if s ≠ 0 then some (l / s) else none
    | _, _ => none
  let cr : Option ℚ := match ca, cl with
    | some a, some l => if l ≠ 0 then some (a / l) else none
    | _, _ => none
  let wc : Option ℚ := match ca, cl with
    | some a, some l => some (a - l)
    | _, _ => none
  let eps : Option ℚ := match ni, shares with
    | some n, some s => some (n / s)
    | _, _ => none
  let bvps : Option ℚ := match se, shares with
    | some b, some s => some (b / s)
    | _, _ => none
  { period := some c
    capital_expenditure := d.capitalExpenditureRow c
    depreciation_and_amortization := d.depreciationRow c
    net_income := ni
    total_assets := ta
    total_liabilities := tl
    dividends_and_other_cash_distributions := d.dividendsPaidRow c
    return_on_equity := roe
    debt_to_equity_ratio := de
    current_ratio := cr
    earnings_per_share := eps
    book_value_per_share := bvps
    working_capital := wc
    long_term_debt := d.longTermDebtRow c
    current_assets := ca
    current_liabilities := cl }

/-- The post-loop patch of `results[0]` (`finance.py` lines 289-299): the
comment there reads "Add latest market data to the most recent historical
period's entry" — i.e. index 0 is the most recent period. -/
def enrichFirst (d : YFinanceData) (shares : Option ℚ) (r0 : FinancialMetrics) :
    FinancialMetrics :=
  let price : Option ℚ := if pyTruthy d.currentPrice then d.currentPrice else d.previousClose
  let pe : Option ℚ :=
    if pyTruthy price ∧ r0.earnings_per_share.isSome ∧ orZero r0.earnings_per_share ≠ 0 then
      some (orZero price / orZero r0.earnings_per_share)
    else r0.price_to_earnings_ratio
  let pb : Option ℚ :=
    if pyTruthy price ∧ r0.book_value_per_share.isSome ∧ orZero r0.book_value_per_share ≠ 0 then
      some (orZero price / orZero r0.book_value_per_share)
    else r0.price_to_book_ratio
  { r0 with
    price_to_earnings_ratio := pe
    price_to_book_ratio := pb
    outstanding_shares := shares
    operating_margin := d.operatingMargins
    market_cap := d.marketCap }

/-- Embeds `_fetch_and_calculate_historical_metrics` from `tools/finance.py`
(lines 168-306).  The Python `sorted(common_cols, reverse=True)` (a stable
sort) is modelled by `List.insertionSort (· ≥ ·)`; on an antisymmetric total
order the two sorts agree. -/
def _fetch_and_calculate_historical_metrics (d : YFinanceData) (periods : ℕ) :
    List FinancialMetrics :=
  if d.incomeCols.isEmpty ∨ d.balanceCols.isEmpty ∨ d.cashflowCols.isEmpty then []
  else
    let common_cols :=
      (List.insertionSort (· ≥ ·)
        (d.incomeCols.filter
          (fun c => decide (c ∈ d.balanceCols) && decide (c ∈ d.cashflowCols)))).take periods
    if common_cols.isEmpty then []
    else
      let shares := if pyTruthy d.sharesOutstanding then d.sharesOutstanding else none
      let results := common_cols.map (buildHistMetric d shares)
      match results with
      | [] => []
      | r0 :: rest => enrichFirst d shares r0 :: rest

/-- Embeds `get_historical_financial_metrics` from `tools/finance.py`
(lines 309-335); the yfinance backend is abstracted as an environment
mapping the queried symbol to its raw data. -/
def get_historical_financial_metrics (env : String → YFinanceData)
    (ticker_symbol : String) (periods : ℕ) : List FinancialMetrics :=
  let ticker_ns :=
    if ¬ (ticker_symbol.endsWith ".NS" ∨ ticker_symbol.endsWith ".BO") then
      ticker_symbol ++ ".NS"
    else ticker_symbol
  let metrics_list := _fetch_and_calculate_historical_metrics (env ticker_ns) periods
  if ¬ metrics_list.isEmpty then metrics_list
  else if ¬ ticker_symbol.endsWith ".BO" then
    let ticker_bo := ticker_symbol ++ ".BO"
    let metrics_list2 := _fetch_and_calculate_historical_metrics (env ticker_bo) periods
    if ¬ metrics_list2.isEmpty then metrics_list2 else []
  else []

/-- The reporting periods of a fetched series, in list order. -/
def periodList (l : List FinancialMetrics) : List ℤ :=
  l.filterMap (fun m => m.period)

/-- Models tenacity's `wait_exponential(multiplier=1, min=1, max=10)` (the
decorator arguments on `generate_buffett_output`, `warren_buffet.py`
line 438): the wait after the `attempt_number`-th failed attempt is
`multiplier * 2^(attempt_number - 1)` clamped into `[min, max]`. -/
def wait_exponential (multiplier minWait maxWait : ℚ) (attempt_number : ℕ) : ℚ :=
  max minWait (min maxWait (multiplier * 2 ^ (attempt_number - 1)))

/-- One retry round of the tenacity loop: the `before_sleep` callback
(`log_and_update_status_before_retry`, which emits a status update) fires
with this attempt number, then the loop sleeps for `wait` seconds. -/
structure RetryEvent where
  attempt_number : ℕ
  wait : ℚ
deriving DecidableEq

/-- What the caller of the decorated `generate_buffett_output` observes:
a value, a tenacity `RetryError` wrapping the last attempt's exception, or a
directly (unwrapped) raised exception. -/
inductive CallerOutcome (E A : Type) where
  | ok (a : A)
  | retryError (last : E)
  | raised (e : E)
deriving DecidableEq

/-- Models tenacity's retry loop with `stop_after_attempt`: `fuel` is the
number of retries still allowed (attempts allowed minus one initially).
Each attempt runs the decorated body (`f`, indexed by attempt number); on
failure with fuel left, the `before_sleep` callback and the exponential
wait are recorded and the loop re-enters; with no fuel left tenacity raises
a `RetryError` wrapping the last attempt's exception (its default
`reraise=False` behaviour). -/
def retryLoop {E A : Type} (f : ℕ → Except E A) (attempt fuel : ℕ) :
    CallerOutcome E A × List RetryEvent :=
  match f attempt, fuel with
  | .ok a, _ => (.ok a, [])
  | .error e, 0 => (.retryError e, [])
  | .error _, fuel' + 1 =>
    let rest := retryLoop f (attempt + 1) fuel'
    (rest.1, ⟨attempt, wait_exponential 1 1 10 attempt⟩ :: rest.2)
termination_by fuel

/-- The decorated `generate_buffett_output` as seen by
`process_single_ticker` (`warren_buffet.py` lines 436-475): the `@retry`
decorator with `stop_after_attempt(5)` allows 5 attempts (4 retries).  The
`except RetryError` clause *inside* the function body never sees the
`RetryError` that the decorator raises around it, so the wrapper — not the
underlying last error — reaches the caller. -/
def generate_buffett_output_run {E A : Type} (f : ℕ → Except E A) :
    CallerOutcome E A × List RetryEvent :=
  retryLoop f 1 4

/-- Embeds `process_single_ticker` error containment (both analysts,
`ben_graham.py` lines 29-91 / `warren_buffet.py` lines 25-122): the whole
per-ticker pipeline runs inside `try`, and any exception is logged and
converted into a `(ticker, None)` result. -/
def process_single_ticker_run {E R : Type} (pipeline : String → Except E R)
    (ticker : String) : String × Option R :=
  match pipeline ticker with
  | .ok result => (ticker, some result)
  | .error _ => (ticker, none)

/-- Embeds the collection loop of `ben_graham_analyst` /
`warren_buffett_analyst` (`ben_graham.py` lines 117-153): results are
gathered per completed future and a ticker is added to the mapping only when
its result is not `None`.  Concurrency only permutes completion order, which
does not affect the final mapping for a deterministic per-ticker pipeline,
so the fold is sequential here. -/
def analyst_run {E R : Type} (pipeline : String → Except E R)
    (tickers : List String) : List (String × R) :=
  tickers.foldl
    (fun acc ticker =>
      match (process_single_ticker_run pipeline ticker).2 with
      | some result => acc ++ [(ticker, result)]
      | none => acc)
    []

/-- The worker bound passed to `ThreadPoolExecutor` by `ben_graham_analyst`
(`ben_graham.py` line 120): `max_workers=min(32, len(tickers))`. -/
def graham_max_workers (tickers : List String) : ℕ := min 32 tickers.length

/-- The worker bound passed to `ThreadPoolExecutor` by
`warren_buffett_analyst` (`warren_buffet.py` line 139):
`max_workers=min(2, len(tickers))`. -/
def buffett_max_workers (tickers : List String) : ℕ := min 2 tickers.length

/-- Abstract state of the worker pool: counts of submitted-but-unstarted,
currently executing, and finished per-ticker pipelines. -/
structure PoolState where
  pending : ℕ
  running : ℕ
  completed : ℕ
deriving DecidableEq

/-- Scheduling steps of a `ThreadPoolExecutor` with `max_workers` worker
threads, per its documented contract: a submitted task starts only while
fewer than `max_workers` tasks are executing, and a running task may finish.
-/
inductive PoolStep (max_workers : ℕ) : PoolState → PoolState → Prop
  | start (s : PoolState) (hp : 0 < s.pending) (hr : s.running < max_workers) :
      PoolStep max_workers s ⟨s.pending - 1, s.running + 1, s.completed⟩
  | finish (s : PoolState) (hr : 0 < s.running) :
      PoolStep max_workers s ⟨s.pending, s.running - 1, s.completed + 1⟩

/-- Pool states reachable from submitting one task per ticker
(`executor.submit(process_single_ticker, ticker) for ticker in tickers`)
with no task yet running. -/
inductive PoolReachable (max_workers : ℕ) (n : ℕ) : PoolState → Prop
  | init : PoolReachable max_workers n ⟨n, 0, 0⟩
  | step {s s' : PoolState} : PoolReachable max_workers n s →
      PoolStep max_workers s s' → PoolReachable max_workers n s'

/-! ### Concrete inputs used in the theorems below -/

/-- A period whose only populated fields are EPS and dividends. -/
def c1m1 : FinancialMetrics :=
  { earnings_per_share := some 1
    dividends_and_other_cash_distributions := some (-1) }

/-- A fully populated latest period: current ratio 9, debt ratio 0.1,
dividend paid, EPS 2, book value per share 5, 10 shares outstanding. -/
def c1m2 : FinancialMetrics :=
  { earnings_per_share := some 2
    dividends_and_other_cash_distributions := some (-1)
    total_assets := some 1000
    total_liabilities := some 100
    current_assets := some 900
    current_liabilities := some 100
    book_value_per_share := some 5
    outstanding_shares := some 10 }

/-- A latest-metrics snapshot whose market cap is 50. -/
def c1latest : FinancialMetrics := { market_cap := some 50 }

/-- Shorthand for a metrics record carrying only an EPS value. -/
def epsOnly (q : ℚ) : FinancialMetrics := { earnings_per_share := some q }

/-- The all-positive growing EPS series `[1, 2, 3, 4, 5]` of the spec's
Graham scenario. -/
def c4series : List FinancialMetrics :=
  [epsOnly 1, epsOnly 2, epsOnly 3, epsOnly 4, epsOnly 5]

/-- A two-element series with too little EPS data (one EPS value). -/
def c4short : List FinancialMetrics := [epsOnly 1, {}]

/-- The spec scenario: current assets 200, current liabilities 50. -/
def c5m : FinancialMetrics :=
  { current_assets := some 200
    current_liabilities := some 50 }

/-- An LLM call whose every attempt raises exception `7`. -/
def c6fail : ℕ → Except ℕ Unit := fun _ => Except.error 7

/-- Three reporting periods with every ROE and operating-margin field
missing. -/
def c8blank : List FinancialMetrics := [{}, {}, {}]

/-- A metrics record carrying only an ROE value. -/
def roeOnly (q : ℚ) : FinancialMetrics := { return_on_equity := some q }

/-- A metrics record in which every field C10 mentions is exactly `0`
(except depreciation/capex companions needed to show the zero net income
alone suffices). -/
def c10m : FinancialMetrics :=
  { return_on_equity := some 0
    debt_to_equity_ratio := some 0
    operating_margin := some 0
    current_ratio := some 0
    net_income := some 0
    depreciation_and_amortization := some 5
    capital_expenditure := some 3 }

/-! ### Shared helper lemmas -/

/-- A string starting with a non-empty piece is non-empty. -/
theorem strAppend_ne_empty_left (a b : String) (h : a ≠ "") : a ++ b ≠ "" := by
  intro he
  apply h
  have hd := congrArg String.data he
  simp only [String.data_append] at hd
  rcases List.append_eq_nil.mp hd with ⟨h1, _⟩
  cases a
  simp_all

/-- Joining a list whose head is non-empty yields a non-empty string. -/
theorem joinSemi_ne_empty (s : String) (rest : List String) (h : s ≠ "") :
    joinSemi (s :: rest) ≠ "" := by
  cases rest with
  | nil => simpa [joinSemi] using h
  | cons t ts => exact strAppend_ne_empty_left _ _ (strAppend_ne_empty_left _ _ h)

/-- The Graham-number square root used by the C1 failing input is exact. -/
theorem sqrt_225 : Rat.sqrt ((22.5 : ℚ) * 2 * 5) = 15 := by
  have h : ((22.5 : ℚ) * 2 * 5) = 15 * 15 := by norm_num
  rw [h, Rat.sqrt_eq]
  norm_num

/-! ### Claim theorems -/

/-- C1: the spec claims `totalScore ≤ maxScore` for every analyst bundle,
and the Graham code itself comments that 15 is the "total possible from the
three analysis functions".  Both are wrong: on the input below the three
Graham sub-scores are 4 (earnings), 5 (strength) and 7 (valuation — the
net-net +4 and the margin-of-safety +3 branches fire together), so the
bundle carries `totalScore = 16 > maxScore = 15`.  This theorem evaluates
the embedded code at that failing input. -/
theorem c1_graham_total_exceeds_max :
    grahamTotalScore c1latest [c1m1, c1m2] = 16 ∧ grahamMaxScore = 15 ∧
    grahamMaxScore < grahamTotalScore c1latest [c1m1, c1m2] := by
  have h1 : (analyze_earnings_stability c1latest [c1m1, c1m2]).score = 4 := by
    simp [analyze_earnings_stability, c1m1, c1m2, joinSemi]
  have h2 : (analyze_financial_strength c1latest [c1m1, c1m2]).score = 5 := by
    simp [analyze_financial_strength, c1m1, c1m2, joinSemi, liquidityPart, debtPart,
      dividendPart, orZero]
    norm_num
  have h3 : (analyze_valuation_graham c1latest [c1m1, c1m2] (some 50)).score = 7 := by
    simp [analyze_valuation_graham, c1m1, c1m2, joinSemi, orZero, pyTruthy, sqrt_225]
    norm_num
  have hmc : c1latest.market_cap = some 50 := rfl
  refine ⟨?_, rfl, ?_⟩ <;>
    simp [grahamTotalScore, hmc, h1, h2, h3, grahamMaxScore]

/-- C4: `analyze_earnings_stability` scores 0 with an insufficient-data
rationale when fewer than two EPS values are available; otherwise it scores
3 when EPS is positive in all periods, 2 when positive in at least 80% of
periods, 0 otherwise, plus 1 when the last (latest) EPS exceeds the first
(earliest); on the series `[1,2,3,4,5]` the score is 4. -/
theorem c4_earnings_stability_rule :
    (∀ (metrics : FinancialMetrics) (hm : List FinancialMetrics),
      (hm.filterMap (fun m => m.earnings_per_share)).length < 2 →
        (analyze_earnings_stability metrics hm).score = 0 ∧
        ((analyze_earnings_stability metrics hm).details
            = "Insufficient data for earnings stability analysis" ∨
         (analyze_earnings_stability metrics hm).details
            = "Not enough multi-year EPS data.")) ∧
    (∀ (metrics : FinancialMetrics) (hm : List FinancialMetrics),
      2 ≤ (hm.filterMap (fun m => m.earnings_per_share)).length →
        (analyze_earnings_stability metrics hm).score =
          (if ((hm.filterMap (fun m => m.earnings_per_share)).filter
                  (fun e => 0 < e)).length
               = (hm.filterMap (fun m => m.earnings_per_share)).length then 3
           else if ((hm.filterMap (fun m => m.earnings_per_share)).length : ℚ) * 0.8
               ≤ (((hm.filterMap (fun m => m.earnings_per_share)).filter
                  (fun e => 0 < e)).length : ℚ) then 2
           else 0)
          + (if (hm.filterMap (fun m => m.earnings_per_share)).headD 0
               < (hm.filterMap (fun m => m.earnings_per_share)).getLastD 0 then 1
             else 0)) ∧
    (analyze_earnings_stability {} c4series).score = 4 := by
  refine ⟨?_, ?_, ?_⟩
  · intro metrics hm h
    unfold analyze_earnings_stability
    by_cases he : hm.isEmpty
    · simp [he]
    · simp only [he, if_false, Bool.false_eq_true]
      rw [if_pos h]
      simp [joinSemi]
  · intro metrics hm h
    unfold analyze_earnings_stability
    have he : ¬ hm.isEmpty := by
      intro habs
      rw [List.isEmpty_iff.mp habs] at h
      simp at h
    simp only [he, if_false, Bool.false_eq_true]
    rw [if_neg (by omega)]
    dsimp only
    split_ifs <;> simp
  · simp [analyze_earnings_stability, c4series, epsOnly, joinSemi]

/-- C4 witness: the theorem applied to the concrete short series (one EPS
value) and its concluding concrete scenario. -/
theorem c4_earnings_stability_rule_witness :
    (analyze_earnings_stability {} c4short).score = 0 ∧
    (analyze_earnings_stability {} c4series).score = 4 := by
  refine ⟨(c4_earnings_stability_rule.1 {} c4short ?_).1, c4_earnings_stability_rule.2.2⟩
  simp [c4short, epsOnly]

/-- The scenario ratio 200/50 formats as "4.00". -/
theorem fmt2_four : fmt2 4 = "4.00" := by
  have h : ((4:ℚ) * 100) = 400 := by norm_num
  have hr : roundHalfEven ((4:ℚ) * 100) = 400 := by
    rw [h]
    unfold roundHalfEven
    norm_num
  unfold fmt2
  rw [hr]
  rfl

/-- C5: whenever the latest entry of a non-empty series has positive
current liabilities and a current ratio of at least 2.0, the liquidity
block of `analyze_financial_strength` awards its full 2 points and the
joined rationale contains the ratio formatted to two decimals; concretely,
current assets 200 and current liabilities 50 give ratio 4, score 2 (the
other blocks award nothing on that input) and a rationale containing
"4.00". -/
theorem c5_liquidity_credit (metrics : FinancialMetrics) (hm : List FinancialMetrics)
    (hne : hm.isEmpty = false)
    (hcl : 0 < orZero (hm.getLastD {}).current_liabilities)
    (hcr : 2.0 ≤ orZero (hm.getLastD {}).current_assets
      / orZero (hm.getLastD {}).current_liabilities) :
    liquidityPart (hm.getLastD {}) =
      (2, "Current ratio = "
        ++ fmt2 (orZero (hm.getLastD {}).current_assets
            / orZero (hm.getLastD {}).current_liabilities)
        ++ " (>=2.0: solid).") ∧
    (∃ pre post, (analyze_financial_strength metrics hm).details
        = pre ++ fmt2 (orZero (hm.getLastD {}).current_assets
            / orZero (hm.getLastD {}).current_liabilities) ++ post) ∧
    2 ≤ (analyze_financial_strength metrics hm).score ∧
    orZero c5m.current_assets / orZero c5m.current_liabilities = 4 ∧
    (analyze_financial_strength {} [c5m]).score = 2 ∧
    (∃ pre post, (analyze_financial_strength {} [c5m]).details
        = pre ++ "4.00" ++ post) := by
  have hl : liquidityPart (hm.getLastD {}) =
      (2, "Current ratio = "
        ++ fmt2 (orZero (hm.getLastD {}).current_assets
            / orZero (hm.getLastD {}).current_liabilities)
        ++ " (>=2.0: solid).") := by
    unfold liquidityPart
    rw [if_pos hcl, if_pos hcr]
  have hratio : orZero c5m.current_assets / orZero c5m.current_liabilities = 4 := by
    simp [c5m, orZero]
    norm_num
  have hstr : analyze_financial_strength metrics hm =
      ⟨2 + (debtPart (hm.getLastD {})).1 + (dividendPart hm).1,
        joinSemi [(liquidityPart (hm.getLastD {})).2, (debtPart (hm.getLastD {})).2,
          (dividendPart hm).2]⟩ := by
    unfold analyze_financial_strength
    rw [hne]
    simp only [Bool.false_eq_true, if_false, hl]
  refine ⟨hl, ?_, ?_, hratio, ?_, ?_⟩
  · refine ⟨"Current ratio = ",
      " (>=2.0: solid)." ++ "; "
        ++ joinSemi [(debtPart (hm.getLastD {})).2, (dividendPart hm).2], ?_⟩
    rw [hstr, hl]
    simp [joinSemi, String.append_assoc]
  · rw [hstr]
    dsimp only
    omega
  · have h5 : analyze_financial_strength {} [c5m] =
        ⟨2 + 0 + 0, joinSemi ["Current ratio = " ++ fmt2 4 ++ " (>=2.0: solid).",
          "Cannot compute debt ratio (missing total_assets).",
          "No dividend data available to assess payout consistency."]⟩ := by
      unfold analyze_financial_strength liquidityPart debtPart dividendPart
      simp [c5m, orZero]
      norm_num
    rw [h5]
  · refine ⟨"Current ratio = ",
      " (>=2.0: solid)." ++ "; "
        ++ joinSemi ["Cannot compute debt ratio (missing total_assets).",
          "No dividend data available to assess payout consistency."], ?_⟩
    have h5 : analyze_financial_strength {} [c5m] =
        ⟨2 + 0 + 0, joinSemi ["Current ratio = " ++ fmt2 4 ++ " (>=2.0: solid).",
          "Cannot compute debt ratio (missing total_assets).",
          "No dividend data available to assess payout consistency."]⟩ := by
      unfold analyze_financial_strength liquidityPart debtPart dividendPart
      simp [c5m, orZero]
      norm_num
    rw [h5, fmt2_four]
    simp [joinSemi, String.append_assoc]

/-- C5 witness: the theorem applied to the concrete scenario series. -/
theorem c5_liquidity_credit_witness :
    liquidityPart (([c5m] : List FinancialMetrics).getLastD {}) =
      (2, "Current ratio = "
        ++ fmt2 (orZero (([c5m] : List FinancialMetrics).getLastD {}).current_assets
            / orZero (([c5m] : List FinancialMetrics).getLastD {}).current_liabilities)
        ++ " (>=2.0: solid).") ∧
    2 ≤ (analyze_financial_strength {} [c5m]).score := by
  have h := c5_liquidity_credit {} [c5m] (by simp)
    (by norm_num [c5m, orZero]) (by norm_num [c5m, orZero])
  exact ⟨h.1, h.2.2.1⟩

/-- C8 counterexample: `analyze_moat` on a series of three entries whose
ROE and operating-margin fields are all missing executes fully (passes its
length guard) yet returns an *empty* details string, refuting "rationale is
never empty when its function executes fully". -/
theorem c8_moat_empty_details :
    3 ≤ c8blank.length ∧ (analyze_moat c8blank).details = "" := by
  constructor
  · simp [c8blank]
  · simp [analyze_moat, c8blank, joinSemi]

/-- The current-ratio block's message is non-empty in every branch. -/
theorem liquidityPart_details_ne (m : FinancialMetrics) : (liquidityPart m).2 ≠ "" := by
  unfold liquidityPart
  dsimp only
  split_ifs <;> first
    | decide
    | exact strAppend_ne_empty_left _ _ (strAppend_ne_empty_left _ _ (by decide))

/-- The ROE check's message is non-empty in every branch. -/
theorem roeCheck_details_ne (m : FinancialMetrics) : (roeCheck m).2 ≠ "" := by
  unfold roeCheck
  split_ifs <;> first
    | decide
    | exact strAppend_ne_empty_left _ _ (by decide)

set_option maxHeartbeats 1600000 in
/-- C8 (amended): every sub-scoring function of both analysts returns a
non-empty details string on every input — `analyze_earnings_stability`,
`analyze_financial_strength` and `analyze_valuation_graham` (Graham) and
`analyze_fundamentals`, `analyze_consistency` and
`analyze_management_quality` (Buffett), whether they execute fully or
degrade to an insufficient-data branch — with the single exception of
`analyze_moat`: it returns a non-empty details string whenever at least
three ROE values or at least three operating-margin values are present,
but on a series of three or more entries whose ROE and operating-margin
fields are all missing it executes fully and returns the empty string. -/
theorem c8_rationale_nonempty :
    (∀ (metrics : FinancialMetrics) (hm : List FinancialMetrics),
      (analyze_earnings_stability metrics hm).details ≠ "") ∧
    (∀ (metrics : FinancialMetrics) (hm : List FinancialMetrics),
      (analyze_financial_strength metrics hm).details ≠ "") ∧
    (∀ (metrics : FinancialMetrics) (hm : List FinancialMetrics)
        (market_cap : Option ℚ),
      (analyze_valuation_graham metrics hm market_cap).details ≠ "") ∧
    (∀ metrics : FinancialMetrics, (analyze_fundamentals metrics).details ≠ "") ∧
    (∀ hm : List FinancialMetrics, (analyze_consistency hm).details ≠ "") ∧
    (∀ metrics : FinancialMetrics,
      (analyze_management_quality metrics).details ≠ "") ∧
    (∀ hm : List FinancialMetrics,
      3 ≤ (hm.filterMap (fun m => m.return_on_equity)).length ∨
      3 ≤ (hm.filterMap (fun m => m.operating_margin)).length →
        (analyze_moat hm).details ≠ "") := by
  refine ⟨?_, ?_, ?_, ?_, ?_, ?_, ?_⟩
  · intro metrics hm
    unfold analyze_earnings_stability
    dsimp only
    split_ifs <;> decide
  · intro metrics hm
    unfold analyze_financial_strength
    split_ifs
    · decide
    · dsimp only
      exact joinSemi_ne_empty _ _ (liquidityPart_details_ne _)
  · intro metrics hm market_cap
    unfold analyze_valuation_graham
    dsimp only
    split_ifs <;>
      (dsimp only
       try simp only [List.cons_append, List.nil_append, List.append_nil]) <;>
      first
        | decide
        | exact joinSemi_ne_empty _ _ (by
            first
              | decide
              | exact strAppend_ne_empty_left _ _ (by decide))
  · intro metrics
    unfold analyze_fundamentals
    dsimp only
    exact joinSemi_ne_empty _ _ (roeCheck_details_ne _)
  · intro hm
    unfold analyze_consistency
    dsimp only
    split_ifs <;>
      (dsimp only
       try simp only [List.cons_append, List.nil_append, List.append_nil]) <;>
      first
        | decide
        | exact joinSemi_ne_empty _ _ (by decide)
  · intro metrics
    unfold analyze_management_quality
    dsimp only
    split_ifs <;>
      (dsimp only
       try simp only [List.cons_append, List.nil_append, List.append_nil]) <;>
      decide
  · intro hm h
    have hlen : 3 ≤ hm.length := by
      rcases h with h | h
      · exact le_trans h (List.length_filterMap_le _ _)
      · exact le_trans h (List.length_filterMap_le _ _)
    unfold analyze_moat
    rw [if_neg (by omega)]
    dsimp only
    rcases h with h | h
    · rw [if_pos h]
      split_ifs <;>
        exact joinSemi_ne_empty _ _ (by decide)
    · by_cases hr : 3 ≤ (hm.filterMap (fun m => m.return_on_equity)).length
      · rw [if_pos hr]
        split_ifs <;>
          exact joinSemi_ne_empty _ _ (by decide)
      · rw [if_neg hr, if_pos h]
        split_ifs <;>
          exact joinSemi_ne_empty _ _ (by decide)

/-- C8 witness: the moat part (the only hypothesis-bearing conjunct)
applied to a concrete three-ROE series, alongside an unconditional part
applied concretely. -/
theorem c8_rationale_nonempty_witness :
    (analyze_earnings_stability {} c4series).details ≠ "" ∧
    (analyze_moat [roeOnly 0.2, roeOnly 0.2, roeOnly 0.2]).details ≠ "" := by
  constructor
  · exact c8_rationale_nonempty.1 {} c4series
  · exact c8_rationale_nonempty.2.2.2.2.2.2 [roeOnly 0.2, roeOnly 0.2, roeOnly 0.2]
      (Or.inl (by simp [roeOnly]))

/-- C10: the Buffett scoring treats a field that is exactly `0` as missing:
each `analyze_fundamentals` check falls to its "data not available" branch
with no points when the corresponding field is `some 0`, and
`calculate_owner_earnings` (hence `calculate_intrinsic_value`) yields `None`
when net income, depreciation or capex is `some 0`. -/
theorem c10_zero_is_missing (m : FinancialMetrics) :
    (m.return_on_equity = some 0 → roeCheck m = (0, "ROE data not available")) ∧
    (m.debt_to_equity_ratio = some 0 → debtCheck m = (0, "Debt to equity data not available")) ∧
    (m.operating_margin = some 0 → marginCheck m = (0, "Operating margin data not available")) ∧
    (m.current_ratio = some 0 → crCheck m = (0, "Current ratio data not available")) ∧
    ((m.net_income = some 0 ∨ m.depreciation_and_amortization = some 0 ∨
        m.capital_expenditure = some 0) →
      (calculate_owner_earnings m).owner_earnings = none ∧
      (calculate_intrinsic_value m).intrinsic_value = none) := by
  refine ⟨?_, ?_, ?_, ?_, ?_⟩
  · intro h; simp [roeCheck, pyTruthy, h]
  · intro h; simp [debtCheck, pyTruthy, h]
  · intro h; simp [marginCheck, pyTruthy, h]
  · intro h; simp [crCheck, pyTruthy, h]
  · intro h
    have howner : (calculate_owner_earnings m).owner_earnings = none := by
      unfold calculate_owner_earnings
      rcases h with h | h | h <;> simp [pyTruthy, h]
    refine ⟨howner, ?_⟩
    simp [calculate_intrinsic_value, howner, pyTruthy]

/-- C10 witness: the theorem applied to a metrics record whose ROE, debt
ratio, margin, current ratio and net income are all exactly `0`. -/
theorem c10_zero_is_missing_witness :
    roeCheck c10m = (0, "ROE data not available") ∧
    (calculate_intrinsic_value c10m).intrinsic_value = none := by
  have h := c10_zero_is_missing c10m
  exact ⟨h.1 rfl, (h.2.2.2.2 (Or.inl rfl)).2⟩

/-- Both branches of `analyze_moat` report `max_score = 3`. -/
theorem analyze_moat_max_score (hm : List FinancialMetrics) :
    (analyze_moat hm).max_score = 3 := by
  unfold analyze_moat
  split <;> rfl

/-- `analyze_management_quality` always reports `max_score = 2`. -/
theorem analyze_management_quality_max_score (m : FinancialMetrics) :
    (analyze_management_quality m).max_score = 2 := rfl

/-- The Buffett `max_possible_score` is always `10 + 3 + 2 = 15`. -/
theorem buffettMaxScore_eq (metrics : FinancialMetrics) (hm : List FinancialMetrics) :
    buffettMaxScore metrics hm = 15 := by
  unfold buffettMaxScore
  rw [analyze_moat_max_score, analyze_management_quality_max_score]

/-- C2: the signal is the deterministic three-way function of the scores:
Graham is bullish iff `totalScore ≥ 0.7·15`, bearish iff
`totalScore ≤ 0.3·15`, neutral otherwise; the Buffett max score is always
15, Buffett is bullish iff the score threshold holds *and* the margin of
safety exists and is at least 0.30, bearish iff the low-score threshold
holds or the margin of safety exists and is below −0.30; in particular a
Buffett bundle with `totalScore = 0.8·maxScore = 12` and margin of safety
`0.1` is neutral, not bullish. -/
theorem c2_signal_rule :
    (∀ total_score : ℕ,
      (grahamSignal total_score = Signal.bullish ↔ 0.7 * (15:ℚ) ≤ (total_score:ℚ)) ∧
      (grahamSignal total_score = Signal.bearish ↔ (total_score:ℚ) ≤ 0.3 * (15:ℚ)) ∧
      (grahamSignal total_score = Signal.neutral ↔
        ¬ 0.7 * (15:ℚ) ≤ (total_score:ℚ) ∧ ¬ (total_score:ℚ) ≤ 0.3 * (15:ℚ))) ∧
    (∀ (metrics : FinancialMetrics) (hm : List FinancialMetrics),
      buffettMaxScore metrics hm = 15) ∧
    (∀ (total_score : ℕ) (mos : Option ℚ),
      (buffettSignal total_score 15 mos = Signal.bullish ↔
        0.7 * (15:ℚ) ≤ (total_score:ℚ) ∧ ∃ m, mos = some m ∧ 0.3 ≤ m) ∧
      (buffettSignal total_score 15 mos = Signal.bearish ↔
        ((total_score:ℚ) ≤ 0.3 * (15:ℚ) ∨ ∃ m, mos = some m ∧ m < -0.3)) ∧
      (buffettSignal total_score 15 mos = Signal.neutral ↔
        ¬ (0.7 * (15:ℚ) ≤ (total_score:ℚ) ∧ ∃ m, mos = some m ∧ 0.3 ≤ m) ∧
        ¬ ((total_score:ℚ) ≤ 0.3 * (15:ℚ) ∨ ∃ m, mos = some m ∧ m < -0.3))) ∧
    buffettSignal 12 15 (some 0.1) = Signal.neutral ∧ (12:ℚ) = 0.8 * 15 := by
  have hgraham : ∀ total_score : ℕ,
      (grahamSignal total_score = Signal.bullish ↔ 0.7 * (15:ℚ) ≤ (total_score:ℚ)) ∧
      (grahamSignal total_score = Signal.bearish ↔ (total_score:ℚ) ≤ 0.3 * (15:ℚ)) ∧
      (grahamSignal total_score = Signal.neutral ↔
        ¬ 0.7 * (15:ℚ) ≤ (total_score:ℚ) ∧ ¬ (total_score:ℚ) ≤ 0.3 * (15:ℚ)) := by
    intro t
    simp only [grahamSignal, grahamMaxScore, Nat.cast_ofNat]
    split_ifs with h1 h2
    · refine ⟨by simp [h1], ?_, ?_⟩
      · simp only [reduceCtorEq, false_iff]
        intro h2
        have : (10.5:ℚ) ≤ (t:ℚ) := by linarith
        linarith
      · simp only [reduceCtorEq, false_iff]
        intro hcontr
        exact hcontr.1 h1
    · exact ⟨by simp [h1], by simp [h2], by simp [h1, h2]⟩
    · exact ⟨by simp [h1], by simp [h2], by simp [h1, h2]⟩
  have hbuffett : ∀ (total_score : ℕ) (mos : Option ℚ),
      (buffettSignal total_score 15 mos = Signal.bullish ↔
        0.7 * (15:ℚ) ≤ (total_score:ℚ) ∧ ∃ m, mos = some m ∧ 0.3 ≤ m) ∧
      (buffettSignal total_score 15 mos = Signal.bearish ↔
        ((total_score:ℚ) ≤ 0.3 * (15:ℚ) ∨ ∃ m, mos = some m ∧ m < -0.3)) ∧
      (buffettSignal total_score 15 mos = Signal.neutral ↔
        ¬ (0.7 * (15:ℚ) ≤ (total_score:ℚ) ∧ ∃ m, mos = some m ∧ 0.3 ≤ m) ∧
        ¬ ((total_score:ℚ) ≤ 0.3 * (15:ℚ) ∨ ∃ m, mos = some m ∧ m < -0.3)) := by
    intro t mos
    have hcond : (0.7 * ((15:ℕ):ℚ) ≤ (t:ℚ) ∧ pyTruthy mos ∧ 0.3 ≤ orZero mos) ↔
        (0.7 * (15:ℚ) ≤ (t:ℚ) ∧ ∃ m, mos = some m ∧ 0.3 ≤ m) := by
      cases mos with
      | none => simp [pyTruthy, orZero]
      | some m =>
        simp only [pyTruthy, orZero, Option.getD_some, Nat.cast_ofNat, Option.some.injEq]
        constructor
        · rintro ⟨ha, _, hc⟩
          exact ⟨ha, m, rfl, hc⟩
        · rintro ⟨ha, m', hm', hc⟩
          cases hm'
          refine ⟨ha, ?_, hc⟩
          simp only [bne_iff_ne, ne_eq]
          intro h0
          rw [h0] at hc
          norm_num at hc
    have hcond2 : ((t:ℚ) ≤ 0.3 * ((15:ℕ):ℚ) ∨ (mos.isSome ∧ orZero mos < -0.3)) ↔
        ((t:ℚ) ≤ 0.3 * (15:ℚ) ∨ ∃ m, mos = some m ∧ m < -0.3) := by
      cases mos with
      | none => simp [orZero]
      | some m => simp [orZero]
    have hexcl : ¬ ((0.7 * (15:ℚ) ≤ (t:ℚ) ∧ ∃ m, mos = some m ∧ 0.3 ≤ m) ∧
        ((t:ℚ) ≤ 0.3 * (15:ℚ) ∨ ∃ m, mos = some m ∧ m < -0.3)) := by
      rintro ⟨⟨hs, m, hm', hge⟩, hlow | ⟨m', hm'', hlt⟩⟩
      · linarith
      · rw [hm'] at hm''
        cases hm''
        linarith
    unfold buffettSignal
    split_ifs with h1 h2
    · rw [hcond] at h1
      refine ⟨by simp [h1], ?_, ?_⟩
      · simp only [reduceCtorEq, false_iff]
        intro hb
        exact hexcl ⟨h1, hb⟩
      · simp only [reduceCtorEq, false_iff]
        intro hcontr
        exact hcontr.1 h1
    · rw [hcond] at h1
      rw [hcond2] at h2
      exact ⟨by simp [h1], by simp [h2], by simp [h1, h2]⟩
    · rw [hcond] at h1
      rw [hcond2] at h2
      exact ⟨by simp [h1], by simp [h2], by simp [h1, h2]⟩
  refine ⟨hgraham, buffettMaxScore_eq, hbuffett, ?_, by norm_num⟩
  have h := (hbuffett 12 (some 0.1)).2.2
  rw [h]
  norm_num

/-- Every metric built by the per-period loop carries its column as period. -/
theorem buildHistMetric_period (d : YFinanceData) (sh : Option ℚ) (c : ℤ) :
    (buildHistMetric d sh c).period = some c := rfl

/-- The `results[0]` patch does not touch the period field. -/
theorem enrichFirst_period (d : YFinanceData) (sh : Option ℚ) (r : FinancialMetrics) :
    (enrichFirst d sh r).period = r.period := rfl

/-- The period list of the built series is exactly the selected column list. -/
theorem periodList_map_build (d : YFinanceData) (sh : Option ℚ) (cs : List ℤ) :
    periodList (cs.map (buildHistMetric d sh)) = cs := by
  induction cs with
  | nil => rfl
  | cons c cs ih =>
    unfold periodList at *
    simp only [List.map_cons, List.filterMap_cons, buildHistMetric_period, ih]

/-- Core ordering fact: for any sorted-descending column selection, the
fetch loop emits its metrics in that order. -/
theorem sorted_fetch_core (d : YFinanceData) (sh : Option ℚ) (cc : List ℤ)
    (hs : List.Sorted (· ≥ ·) cc) :
    List.Sorted (· ≥ ·) (periodList
      (if cc.isEmpty then []
       else match cc.map (buildHistMetric d sh) with
         | [] => []
         | r0 :: rest => enrichFirst d sh r0 :: rest)) := by
  cases cc with
  | nil => simp [periodList]
  | cons c cs =>
    simp only [List.isEmpty_cons, Bool.false_eq_true, if_false, List.map_cons]
    have hp : periodList (enrichFirst d sh (buildHistMetric d sh c)
        :: cs.map (buildHistMetric d sh)) = c :: cs := by
      unfold periodList
      simp only [List.filterMap_cons, enrichFirst_period, buildHistMetric_period]
      have := periodList_map_build d sh cs
      unfold periodList at this
      rw [this]
    rw [hp]
    exact hs

/-- The period list of any fetched historical series is sorted descending
(newest first). -/
theorem sorted_fetch (d : YFinanceData) (p : ℕ) :
    List.Sorted (· ≥ ·)
      (periodList (_fetch_and_calculate_historical_metrics d p)) := by
  unfold _fetch_and_calculate_historical_metrics
  by_cases h1 : (d.incomeCols.isEmpty = true ∨ d.balanceCols.isEmpty = true
      ∨ d.cashflowCols.isEmpty = true)
  · rw [if_pos h1]
    simp [periodList]
  · rw [if_neg h1]
    exact sorted_fetch_core d _ _
      (List.Pairwise.sublist (List.take_sublist _ _)
        (List.sorted_insertionSort _ _))

/-- C3 (amended): for every environment, ticker and period count,
`get_historical_financial_metrics` returns the series ordered newest to
oldest — the reporting periods along the list are sorted descending, so
index 0 holds the *latest* period. -/
theorem c3_series_newest_first (env : String → YFinanceData)
    (ticker_symbol : String) (periods : ℕ) :
    List.Sorted (· ≥ ·)
      (periodList (get_historical_financial_metrics env ticker_symbol periods)) := by
  unfold get_historical_financial_metrics
  dsimp only
  split_ifs <;> first
    | exact sorted_fetch _ _
    | simp [periodList]

/-- Two common annual reporting periods, labelled 2020 and 2021. -/
def c3data : YFinanceData :=
  { incomeCols := [2020, 2021]
    balanceCols := [2020, 2021]
    cashflowCols := [2020, 2021] }

/-- An environment serving `c3data` for every queried symbol. -/
def c3env : String → YFinanceData := fun _ => c3data

/-- C3 counterexample: with reporting periods 2020 and 2021 available, the
returned series has period list `[2021, 2020]` — index 0 holds the
*latest* period, not the earliest, and the list is not ascending, refuting
"ordered oldest to newest". -/
theorem c3_not_oldest_first :
    periodList (get_historical_financial_metrics c3env "RELIANCE" 10) = [2021, 2020] ∧
    ¬ List.Sorted (· ≤ ·)
        (periodList (get_historical_financial_metrics c3env "RELIANCE" 10)) := by
  have heval : periodList (get_historical_financial_metrics c3env "RELIANCE" 10)
      = [2021, 2020] := by
    have hfetch : _fetch_and_calculate_historical_metrics c3data 10 =
        [enrichFirst c3data none (buildHistMetric c3data none 2021),
         buildHistMetric c3data none 2020] := by
      unfold _fetch_and_calculate_historical_metrics
      norm_num [c3data, pyTruthy, List.insertionSort, List.orderedInsert]
    unfold get_historical_financial_metrics
    simp only [c3env, hfetch]
    norm_num [periodList, List.filterMap_cons, enrichFirst_period, buildHistMetric_period]
  refine ⟨heval, ?_⟩
  rw [heval]
  decide

/-- The clamped exponential wait always lies in `[1, 10]`. -/
theorem wait_exponential_bounds (k : ℕ) :
    1 ≤ wait_exponential 1 1 10 k ∧ wait_exponential 1 1 10 k ≤ 10 := by
  unfold wait_exponential
  exact ⟨le_max_left _ _, max_le (by norm_num) (min_le_left _ _)⟩

/-- Every recorded retry event carries the tenacity exponential wait for
its attempt number. -/
theorem retryLoop_event_wait {E A : Type} (f : ℕ → Except E A) (fuel : ℕ) :
    ∀ (a : ℕ), ∀ ev ∈ (retryLoop f a fuel).2,
      ev.wait = wait_exponential 1 1 10 ev.attempt_number := by
  induction fuel with
  | zero =>
    intro a ev hev
    unfold retryLoop at hev
    cases hfa : f a <;> rw [hfa] at hev <;> simp at hev
  | succ n ih =>
    intro a ev hev
    unfold retryLoop at hev
    cases hfa : f a <;> rw [hfa] at hev
    · simp only [List.mem_cons] at hev
      rcases hev with hev | hev
      · subst hev; rfl
      · exact ih (a + 1) ev hev
    · simp at hev

/-- The retry loop records at most `fuel` retry events. -/
theorem retryLoop_events_length {E A : Type} (f : ℕ → Except E A) (fuel : ℕ) :
    ∀ a : ℕ, (retryLoop f a fuel).2.length ≤ fuel := by
  induction fuel with
  | zero =>
    intro a
    unfold retryLoop
    cases hfa : f a <;> simp
  | succ n ih =>
    intro a
    unfold retryLoop
    cases hfa : f a
    · simpa using ih (a + 1)
    · simp

/-- C6 counterexample: when every LLM attempt raises, the caller of the
per-ticker pipeline receives tenacity's `RetryError` *wrapper* — not the
underlying last error as the spec claims — and only 4 retry sleeps happen
(5 attempts total). -/
theorem c6_wrapper_reaches_caller :
    (generate_buffett_output_run c6fail).1 = CallerOutcome.retryError 7 ∧
    (generate_buffett_output_run c6fail).1 ≠ CallerOutcome.raised 7 ∧
    (generate_buffett_output_run c6fail).2.length = 4 := by
  have h : generate_buffett_output_run c6fail =
      (CallerOutcome.retryError 7,
        [⟨1, wait_exponential 1 1 10 1⟩, ⟨2, wait_exponential 1 1 10 2⟩,
         ⟨3, wait_exponential 1 1 10 3⟩, ⟨4, wait_exponential 1 1 10 4⟩]) := by
    unfold generate_buffett_output_run
    simp [retryLoop, c6fail]
  rw [h]
  exact ⟨rfl, by simp, rfl⟩

/-- C6 (amended): the decorated narrative call makes at most 5 attempts
(at most 4 retry rounds), a status callback fires before each retry sleep
(each `RetryEvent` is callback-then-sleep), every backoff wait is the
exponential wait for its attempt clamped into `[1, 10]` seconds, and when
all attempts fail the caller of the per-ticker pipeline receives a
tenacity `RetryError` wrapping the final attempt's exception, with waits
exactly `[1, 2, 4, 8]`. -/
theorem c6_retry_behavior {E A : Type} (f : ℕ → Except E A) :
    (generate_buffett_output_run f).2.length ≤ 4 ∧
    (∀ ev ∈ (generate_buffett_output_run f).2,
      ev.wait = wait_exponential 1 1 10 ev.attempt_number ∧
      1 ≤ ev.wait ∧ ev.wait ≤ 10) ∧
    (∀ e : ℕ → E, (∀ k, f k = Except.error (e k)) →
      (generate_buffett_output_run f).1 = CallerOutcome.retryError (e 5) ∧
      (generate_buffett_output_run f).2.map (fun ev => ev.wait) = [1, 2, 4, 8]) := by
  refine ⟨retryLoop_events_length f 4 1, ?_, ?_⟩
  · intro ev hev
    have hw := retryLoop_event_wait f 4 1 ev hev
    exact ⟨hw, by rw [hw]; exact (wait_exponential_bounds _).1,
      by rw [hw]; exact (wait_exponential_bounds _).2⟩
  · intro e he
    have h : generate_buffett_output_run f =
        (CallerOutcome.retryError (e 5),
          [⟨1, wait_exponential 1 1 10 1⟩, ⟨2, wait_exponential 1 1 10 2⟩,
           ⟨3, wait_exponential 1 1 10 3⟩, ⟨4, wait_exponential 1 1 10 4⟩]) := by
      unfold generate_buffett_output_run
      simp [retryLoop, he 1, he 2, he 3, he 4, he 5]
    rw [h]
    refine ⟨rfl, ?_⟩
    norm_num [wait_exponential]

/-- C6 witness: the amended theorem applied to the always-failing call. -/
theorem c6_retry_behavior_witness :
    (generate_buffett_output_run c6fail).1 = CallerOutcome.retryError 7 ∧
    (generate_buffett_output_run c6fail).2.map (fun ev => ev.wait) = [1, 2, 4, 8] := by
  have h := (c6_retry_behavior c6fail).2.2 (fun _ => 7) (fun _ => rfl)
  exact ⟨h.1, h.2⟩

/-- Membership characterisation of the collection fold of the analysts:
a pair is collected iff it was in the accumulator already or its ticker is
in the remaining list and its pipeline succeeded with that result. -/
theorem analyst_run_go_mem {E R : Type} (pipeline : String → Except E R)
    (t : String) (r : R) :
    ∀ (tickers : List String) (acc : List (String × R)),
      ((t, r) ∈ tickers.foldl
        (fun acc ticker =>
          match (process_single_ticker_run pipeline ticker).2 with
          | some result => acc ++ [(ticker, result)]
          | none => acc) acc
      ↔ (t, r) ∈ acc ∨ (t ∈ tickers ∧ pipeline t = Except.ok r)) := by
  intro tickers
  induction tickers with
  | nil => intro acc; simp
  | cons x xs ih =>
    intro acc
    rw [List.foldl_cons, ih]
    unfold process_single_ticker_run
    cases hx : pipeline x with
    | ok v =>
      simp only
      constructor
      · rintro (hmem | ⟨hxs, hok⟩)
        · rcases List.mem_append.mp hmem with hm | hm
          · exact Or.inl hm
          · simp only [List.mem_singleton, Prod.mk.injEq] at hm
            refine Or.inr ⟨List.mem_cons.mpr (Or.inl hm.1), ?_⟩
            rw [hm.1, hx, hm.2]
        · exact Or.inr ⟨List.mem_cons_of_mem _ hxs, hok⟩
      · rintro (hmem | ⟨hmem, hok⟩)
        · exact Or.inl (List.mem_append_left _ hmem)
        · rcases List.mem_cons.mp hmem with ht | hxs
          · subst ht
            rw [hx] at hok
            injection hok with hv
            subst hv
            exact Or.inl (List.mem_append_right _ (by simp))
          · exact Or.inr ⟨hxs, hok⟩
    | error err =>
      simp only
      constructor
      · rintro (hmem | ⟨hxs, hok⟩)
        · exact Or.inl hmem
        · exact Or.inr ⟨List.mem_cons_of_mem _ hxs, hok⟩
      · rintro (hmem | ⟨hmem, hok⟩)
        · exact Or.inl hmem
        · rcases List.mem_cons.mp hmem with ht | hxs
          · subst ht
            rw [hx] at hok
            exact absurd hok (by simp)
          · exact Or.inr ⟨hxs, hok⟩

/-- C7: a ticker appears in the analyst's result mapping iff it is in the
input list and its per-ticker pipeline succeeded with that result: a
ticker whose pipeline raises is absent, the exception never escapes the
analyst (whose embedding is a total function into plain mappings), and
every other successful ticker is still present. -/
theorem c7_ticker_isolation {E R : Type} (pipeline : String → Except E R)
    (tickers : List String) (t : String) (r : R) :
    ((t, r) ∈ analyst_run pipeline tickers ↔
      t ∈ tickers ∧ pipeline t = Except.ok r) := by
  unfold analyst_run
  rw [analyst_run_go_mem]
  simp

/-- Any reachable pool state runs at most `max_workers` tasks. -/
theorem pool_running_le (max_workers n : ℕ) (s : PoolState)
    (h : PoolReachable max_workers n s) : s.running ≤ max_workers := by
  induction h with
  | init => exact Nat.zero_le _
  | step hreach hstep ih =>
    cases hstep with
    | start hp hr => simpa using hr
    | finish hr =>
      simp only
      omega

/-- C9: both analysts create their pool with a worker bound of
`min(configuredCap, len(tickers))` (cap 32 for Graham, cap 2 for Buffett),
and no reachable pool state ever runs more per-ticker pipelines than that
bound. -/
theorem c9_worker_bound :
    (∀ tickers : List String, graham_max_workers tickers = min 32 tickers.length) ∧
    (∀ tickers : List String, buffett_max_workers tickers = min 2 tickers.length) ∧
    (∀ (tickers : List String) (s : PoolState),
      PoolReachable (graham_max_workers tickers) tickers.length s →
        s.running ≤ min 32 tickers.length) ∧
    (∀ (tickers : List String) (s : PoolState),
      PoolReachable (buffett_max_workers tickers) tickers.length s →
        s.running ≤ min 2 tickers.length) := by
  refine ⟨fun _ => rfl, fun _ => rfl, ?_, ?_⟩ <;>
    exact fun tickers s h => pool_running_le _ _ _ h

/-- C9 witness: the invariant applied to the initial state of a pool over
three tickers. -/
theorem c9_worker_bound_witness :
    (⟨3, 0, 0⟩ : PoolState).running ≤
      min 32 (["TCS", "INFY", "HDFCBANK"] : List String).length := by
  exact c9_worker_bound.2.2.1 ["TCS", "INFY", "HDFCBANK"] ⟨3, 0, 0⟩ PoolReachable.init
